import Mathlib

/-!
Verification of the CAPNOW lead-cleaner (`src/app1.py`) and the bank-statement
verifier (`src/Bank_Statements_Verifier.py`).

A source table is modelled column-wise: a list of `(header, cells)` pairs plus
the row count `nrows` (Python `len(df)`).  Cells are strings, as after
`pd.read_csv(..., dtype=str).fillna("")`.  The cleaned output is modelled as
the table that `out.to_csv` serialises: pandas `NaN`/`NaT` entries of a
datetime64 column render as the empty string there, while a `NaT` passed
through `.astype(str)` renders as the literal string `"NaT"`.
-/

namespace LeadCleaner

/-- Python whitespace characters recognised by `str.strip()` / `\s`
(ASCII subset: space, tab, newline, carriage return, vertical tab, form feed). -/
def isPySpace (c : Char) : Bool :=
  c = ' ' || c = '\t' || c = '\n' || c = '\r' || c = '\x0b' || c = '\x0c'

/-- `str.strip()` on a character list: drop whitespace from both ends. -/
def pyStripL (l : List Char) : List Char :=
  ((l.dropWhile isPySpace).reverse.dropWhile isPySpace).reverse

/-- `str.strip()` on a string. -/
def pyStrip (s : String) : String :=
  String.mk (pyStripL s.toList)

/-- Lower-case letters and digits, the characters kept by `re.sub(r"[^a-z0-9]", "", ...)`. -/
def isLowerAlnum (c : Char) : Bool :=
  ('a' ≤ c && c ≤ 'z') || ('0' ≤ c && c ≤ '9')

/-- `normalize(col)` from app1.py line 70: `re.sub(r"[^a-z0-9]", "", str(col).lower().strip())`. -/
def normalize (col : String) : String :=
  String.mk ((pyStripL (col.toList.map Char.toLower)).filter isLowerAlnum)

/-- `re.sub(r"\D", "", x)`: keep only the decimal digits of a string. -/
def stripNonDigits (s : String) : String :=
  String.mk (s.toList.filter Char.isDigit)

/-- A table: named columns of string cells, plus the row count `len(df)`. -/
structure Table where
  cols : List (String × List String)
  nrows : Nat
deriving Repr, DecidableEq

/-- Well-formedness: every column holds exactly `nrows` cells. -/
def Table.WF (t : Table) : Prop :=
  ∀ c ∈ t.cols, c.2.length = t.nrows

instance (t : Table) : Decidable t.WF := by
  unfold Table.WF; infer_instance

/-- Column of the cleaned output by header name (empty if absent). -/
def getCol (t : Table) (name : String) : List String :=
  match t.cols.find? (fun c => c.1 == name) with
  | some c => c.2
  | none => []

/-! ### The alias table (app1.py `FIELD_ALIASES`) -/

def first_name_aliases : List String :=
  ["firstname", "first name", "fname", "applicantfirstname", "givenname"]

def last_name_aliases : List String :=
  ["lastname", "last name", "lname", "applicantlastname", "surname"]

def full_name_aliases : List String :=
  ["fullname", "contactname", "applicantname", "name", "borrowername", "clientname", "ownername"]

def ssn_aliases : List String :=
  ["ssn", "social", "socialsecurity", "socialsecuritynumber", "social sec"]

def ein_aliases : List String :=
  ["ein", "taxid", "tax id", "fein", "federalid", "business taxid", "employer id"]

def dob_aliases : List String :=
  ["dob", "birthdate", "dateofbirth", "birth", "d.o.b", "applicantdob"]

def business_name_aliases : List String :=
  ["businessname", "company", "companyname", "organization", "bizname", "dba", "employer",
   "legal business name"]

def industry_aliases : List String :=
  ["industry", "sector", "business type", "business category", "natureofbusiness"]

def phone_aliases : List String :=
  ["phone", "cell", "mobile", "contact", "primary phone", "contact number", "number", "telephone"]

def email_aliases : List String :=
  ["email", "email1", "gmail", "contact email", "googleemail", "applicantemail", "e-mail"]

def revenue_aliases : List String :=
  ["monthly revenue", "revenue", "income", "turnover", "monthlyincome", "monthly gross",
   "gross revenue", "grossmonthlyincome"]

def address_aliases : List String :=
  ["address", "street", "city", "state", "zip", "zipcode", "mailing address", "business address",
   "home address", "location", "residential address"]

/-- Aliases used directly at app1.py line 165 for the Home Address field. -/
def home_address_keys : List String :=
  ["home address", "residential address", "owner address"]

/-! ### Field extraction (app1.py lines 73-127) -/

/-- Predicate of the `extract_by_keywords` scan: the (normalised) header is one of the keys. -/
def keyMatch (keys : List String) (c : String × List String) : Bool :=
  (keys.map normalize).contains (normalize c.1)

/-- `extract_by_keywords(df, keys)`: the first column whose normalised header is
among the normalised keys; otherwise a column of empty strings. -/
def extract_by_keywords (t : Table) (keys : List String) : List String :=
  match t.cols.find? (keyMatch keys) with
  | some c => c.2
  | none => List.replicate t.nrows ""

/-- Whether some column of the table matches one of the keys. -/
def aliasMatched (t : Table) (keys : List String) : Bool :=
  t.cols.any (keyMatch keys)

/-! ### Phones and emails (app1.py lines 79-96) -/

/-- One phone candidate column, from the body of `extract_phones`: the column's
cells with non-digits stripped qualify when at least one cell has exactly 10
digits.  The series `valid = digits[digits.str.len() == 10]` drops the other
rows; those dropped rows surface as `NaN` in `out` and hence as the empty
string in the serialised CSV, modelled here directly as `""`. -/
def phoneCandOf (cells : List String) : Option (List String) :=
  let digs := cells.map stripNonDigits
  if digs.any (fun d => d.length == 10) then
    some (digs.map (fun d => if d.length == 10 then d else ""))
  else none

/-- All phone candidate columns, in column order. -/
def phoneCandidates (t : Table) : List (List String) :=
  t.cols.filterMap (fun c => phoneCandOf c.2)

/-- `extract_phones(df)`: the first three candidate columns, padded with
empty-string columns to exactly three entries
(`phones[:3] + [pd.Series([""] * len(df))] * (3 - len(phones))`). -/
def extract_phones (t : Table) : List (List String) :=
  let ps := (phoneCandidates t).take 3
  ps ++ List.replicate (3 - ps.length) (List.replicate t.nrows "")

/-- One email candidate column: kept (with its original cells) when some cell
contains an `@`, following `df[col].astype(str).str.contains(r"@")`. -/
def emailCandOf (cells : List String) : Option (List String) :=
  if cells.any (fun s => s.toList.contains '@') then some cells else none

/-- All email candidate columns, in column order. -/
def emailCandidates (t : Table) : List (List String) :=
  t.cols.filterMap (fun c => emailCandOf c.2)

/-- `extract_emails(df)`: the first two candidate columns, padded to two. -/
def extract_emails (t : Table) : List (List String) :=
  let es := (emailCandidates t).take 2
  es ++ List.replicate (2 - es.length) (List.replicate t.nrows "")

/-! ### Date parsing (`pd.to_datetime(..., errors='coerce')`)

Modelled for the date shapes this cleaner encounters: ISO `YYYY-MM-DD`,
US `MM/DD/YYYY`, each optionally followed by a `HH:MM:SS` time, with basic
range validation; every other string coerces to `NaT` (`none`).  This is the
faithful restriction of the pandas parser to the formats the repository's
data and its own output use. -/

structure PyDate where
  year : Nat
  month : Nat
  day : Nat
deriving Repr, DecidableEq

/-- Numeric value of a digit list (most significant first). -/
def digitsVal (l : List Char) : Nat :=
  l.foldl (fun a c => a * 10 + (c.toNat - 48)) 0

/-- Split a character list at every occurrence of the separator
(`str.split(sep)` semantics: the empty list yields one empty token). -/
def splitOnChar (sep : Char) : List Char → List (List Char)
  | [] => [[]]
  | c :: rest =>
    if c = sep then [] :: splitOnChar sep rest
    else
      match splitOnChar sep rest with
      | [] => [[c]]
      | h :: ts => (c :: h) :: ts

/-- A non-empty all-digit token parses to its value. -/
def parseNatTok (l : List Char) : Option Nat :=
  if l ≠ [] ∧ l.all Char.isDigit then some (digitsVal l) else none

/-- Date-part validation: month 1-12, day 1-31 (pandas also checks
day-in-month; the repository's data never exercises that difference). -/
def validYMD (y m d : Nat) : Bool :=
  1 ≤ m && m ≤ 12 && 1 ≤ d && d ≤ 31 && 0 < y && y ≤ 9999

/-- Build a date from year/month/day digit tokens, requiring a 4-digit year. -/
def parseYMDparts (ys ms ds : List Char) : Option PyDate :=
  if ys.length == 4 then
    match parseNatTok ys, parseNatTok ms, parseNatTok ds with
    | some y, some m, some d => if validYMD y m d then some ⟨y, m, d⟩ else none
    | _, _, _ => none
  else none

/-- Parse a date token: `YYYY-MM-DD` (4-digit year) or `MM/DD/YYYY`. -/
def parseDateTok (tok : List Char) : Option PyDate :=
  match splitOnChar '-' tok with
  | [ys, ms, ds] => parseYMDparts ys ms ds
  | _ =>
    match splitOnChar '/' tok with
    | [ms, ds, ys] => parseYMDparts ys ms ds
    | _ => none

/-- A `HH:MM:SS` time token. -/
def isTimeTok (tok : List Char) : Bool :=
  match splitOnChar ':' tok with
  | [hs, ms, ss] =>
    match parseNatTok hs, parseNatTok ms, parseNatTok ss with
    | some h, some m, some s => h < 24 && m < 60 && s < 60
    | _, _, _ => false
  | _ => false

/-- `pd.to_datetime(cell, errors='coerce')` on one cell: a date token, or a
date token followed by a time token; anything else is `NaT` (`none`). -/
def parseDate (s : String) : Option PyDate :=
  match splitOnChar ' ' (pyStripL s.toList) with
  | [d] => parseDateTok d
  | [d, tm] => if isTimeTok tm then parseDateTok d else none
  | _ => none

/-- Zero-padded two-digit rendering. -/
def pad2 (n : Nat) : String :=
  if n < 10 then "0" ++ toString n else toString n

/-- Zero-padded four-digit rendering. -/
def pad4 (n : Nat) : String :=
  if n < 10 then "000" ++ toString n
  else if n < 100 then "00" ++ toString n
  else if n < 1000 then "0" ++ toString n
  else toString n

/-- `str(pd.Timestamp(d))` for a midnight timestamp: `YYYY-MM-DD 00:00:00`. -/
def pyDateStr (d : PyDate) : String :=
  pad4 d.year ++ "-" ++ pad2 d.month ++ "-" ++ pad2 d.day ++ " 00:00:00"

/-- Date-only ISO rendering `YYYY-MM-DD`, used by `to_csv` for a datetime64
column whose entries are all midnight. -/
def pyDateOnlyStr (d : PyDate) : String :=
  pad4 d.year ++ "-" ++ pad2 d.month ++ "-" ++ pad2 d.day

/-- One cell of a date column after `.astype(str)`: parsed dates render as
`YYYY-MM-DD 00:00:00`, `NaT` renders as the string `"NaT"`. -/
def dateCellStr (c : String) : String :=
  match parseDate c with
  | some d => pyDateStr d
  | none => "NaT"

/-- One cell of the `Lead Date` datetime64 column as serialised by `to_csv`:
dates render date-only, `NaT` renders as the empty string. -/
def leadDateCellStr (c : String) : String :=
  match parseDate c with
  | some d => pyDateOnlyStr d
  | none => ""

/-! ### Date-column extraction (app1.py lines 98-127) -/

/-- Years of the parseable cells of a column (`dates.dropna().dt.year`). -/
def parsedYears (cells : List String) : List Nat :=
  (cells.filterMap parseDate).map PyDate.year

/-- Candidate test of `extract_dobs`: at least one parseable date
(`dates.notna().sum() > 0`) and a strict majority of parsed years below 2000
(`(dates.dropna().dt.year < 2000).mean() > 0.5`). -/
def isDobCandidate (cells : List String) : Bool :=
  let ys := parsedYears cells
  0 < ys.length && ys.length < 2 * (ys.filter (fun y => y < 2000)).length

/-- Candidate test of `extract_bsd`: at least one parseable date and a strict
majority of parsed years at or above 2000. -/
def isBsdCandidate (cells : List String) : Bool :=
  let ys := parsedYears cells
  0 < ys.length && ys.length < 2 * (ys.filter (fun y => 2000 ≤ y)).length

/-- `extract_dobs(df)` composed with the `.astype(str)` applied at the
assignment site (line 150): the first candidate column rendered cell-wise via
`dateCellStr`; with no candidate, the empty-string series. -/
def extract_dobs (t : Table) : List String :=
  match t.cols.find? (fun c => isDobCandidate c.2) with
  | some c => c.2.map dateCellStr
  | none => List.replicate t.nrows ""

/-- `extract_bsd(df)` composed with the `.astype(str)` of line 153. -/
def extract_bsd (t : Table) : List String :=
  match t.cols.find? (fun c => isBsdCandidate c.2) with
  | some c => c.2.map dateCellStr
  | none => List.replicate t.nrows ""

/-- Candidate test of `extract_lead_date`: at least one parseable date and a
strict majority of parsed years strictly above 2000. -/
def isLeadCandidate (cells : List String) : Bool :=
  let ys := parsedYears cells
  0 < ys.length && ys.length < 2 * (ys.filter (fun y => 2000 < y)).length

/-- `extract_lead_date(df)`: examines only the first column (`df.iloc[:, 0]`);
serialised as the datetime64 column that `to_csv` writes (`leadDateCellStr`).
The `[]` branch is unreachable for tables coming from `pd.read_csv`, which
always yields at least one column. -/
def extract_lead_date (t : Table) : List String :=
  match t.cols with
  | [] => List.replicate t.nrows ""
  | c :: _ =>
    if isLeadCandidate c.2 then c.2.map leadDateCellStr
    else List.replicate t.nrows ""

/-! ### The cleaning pipeline (app1.py lines 141-166)

The header-stripping step of line 139 (`df.columns = [str(c).strip() ...]`)
is omitted: header matching goes through `normalize`, which strips the same
whitespace itself (`normalize_pyStrip` below), and output headers are the
fixed `FINAL_COLUMNS`; the step is observationally irrelevant to the cleaned
output. -/

def FINAL_COLUMNS : List String :=
  ["Lead Date", "Business Name", "Full Name", "SSN", "DOB", "Industry", "EIN",
   "Business Start Date", "Phone 1", "Phone 2", "Phone 3", "Email 1", "Email 2",
   "Business Address", "Home Address", "Monthly Revenue"]

/-- Full Name synthesis (lines 145-148): first-name cell, a space, last-name
cell, then `str.strip()`. -/
def fullNameCol (t : Table) : List String :=
  List.zipWith (fun a b => pyStrip (a ++ " " ++ b))
    (extract_by_keywords t first_name_aliases)
    (extract_by_keywords t last_name_aliases)

/-- The cleaned output `out` (lines 141-166), as serialised by
`out.to_csv(index=False)`. -/
def clean (t : Table) : Table :=
  let phones := extract_phones t
  let emails := extract_emails t
  { cols := [
      ("Lead Date", extract_lead_date t),
      ("Business Name", extract_by_keywords t business_name_aliases),
      ("Full Name", fullNameCol t),
      ("SSN", extract_by_keywords t ssn_aliases),
      ("DOB", extract_dobs t),
      ("Industry", extract_by_keywords t industry_aliases),
      ("EIN", extract_by_keywords t ein_aliases),
      ("Business Start Date", extract_bsd t),
      ("Phone 1", phones.getD 0 (List.replicate t.nrows "")),
      ("Phone 2", phones.getD 1 (List.replicate t.nrows "")),
      ("Phone 3", phones.getD 2 (List.replicate t.nrows "")),
      ("Email 1", emails.getD 0 (List.replicate t.nrows "")),
      ("Email 2", emails.getD 1 (List.replicate t.nrows "")),
      ("Business Address", extract_by_keywords t address_aliases),
      ("Home Address", extract_by_keywords t home_address_keys),
      ("Monthly Revenue", extract_by_keywords t revenue_aliases)],
    nrows := t.nrows }

/-! ### Helper lemmas -/

lemma filter_dropWhile_of_disjoint {q p : Char → Bool} {f : Char → Char}
    (h : ∀ c, p c = true → q (f c) = false) :
    ∀ l : List Char, ((l.dropWhile p).map f).filter q = (l.map f).filter q := by
  intro l
  induction l with
  | nil => rfl
  | cons a tl ih =>
    by_cases ha : p a
    · rw [List.dropWhile_cons_of_pos ha, ih, List.map_cons, List.filter_cons,
        h a ha]
      simp
    · rw [List.dropWhile_cons_of_neg (by simp [ha])]

lemma filter_pyStripL_map {q : Char → Bool} {f : Char → Char}
    (h : ∀ c, isPySpace c = true → q (f c) = false) (l : List Char) :
    ((pyStripL l).map f).filter q = (l.map f).filter q := by
  unfold pyStripL
  rw [List.map_reverse, List.filter_reverse, filter_dropWhile_of_disjoint h,
    List.map_reverse, List.filter_reverse, List.reverse_reverse,
    filter_dropWhile_of_disjoint h]

lemma filter_pyStripL {q : Char → Bool}
    (h : ∀ c, isPySpace c = true → q c = false) (l : List Char) :
    (pyStripL l).filter q = l.filter q := by
  have := filter_pyStripL_map (f := id) (q := q) (fun c hc => h c hc) l
  simpa using this

lemma isLowerAlnum_toLower_of_space {c : Char} (h : isPySpace c = true) :
    isLowerAlnum (Char.toLower c) = false := by
  simp only [isPySpace, Bool.or_eq_true, decide_eq_true_eq] at h
  rcases h with ((((h | h) | h) | h) | h) | h <;> subst h <;> decide

lemma isLowerAlnum_of_space {c : Char} (h : isPySpace c = true) :
    isLowerAlnum c = false := by
  simp only [isPySpace, Bool.or_eq_true, decide_eq_true_eq] at h
  rcases h with ((((h | h) | h) | h) | h) | h <;> subst h <;> decide

/-- Justification for omitting app1.py line 139 from the model: stripping a
header before normalising it changes nothing, since `normalize` strips the
same whitespace itself. -/
lemma normalize_pyStrip (s : String) : normalize (pyStrip s) = normalize s := by
  unfold normalize pyStrip
  apply congrArg String.mk
  show ((pyStripL ((pyStripL s.toList).map Char.toLower)).filter isLowerAlnum) = _
  rw [filter_pyStripL (fun c hc => isLowerAlnum_of_space hc),
    filter_pyStripL (fun c hc => isLowerAlnum_of_space hc)]
  exact filter_pyStripL_map (fun c hc => isLowerAlnum_toLower_of_space hc) s.toList

lemma getD_replicate_self {α : Type} (n i : Nat) (x : α) :
    (List.replicate n x).getD i x = x := by
  rcases Nat.lt_or_ge i n with h | h
  · simp [List.getD, List.getElem?_replicate, h]
  · simp [List.getD, List.getElem?_eq_none, h]

/-- `find?` returns the `i`-th element when it satisfies the predicate and no
earlier element does. -/
lemma find?_of_take_all {α : Type} {p : α → Bool} :
    ∀ (l : List α) (i : Nat) (h : i < l.length),
      p (l.get ⟨i, h⟩) = true → ((l.take i).all (fun a => !p a)) = true →
      l.find? p = some (l.get ⟨i, h⟩) := by
  intro l
  induction l with
  | nil => intro i h; exact absurd h (Nat.not_lt_zero i)
  | cons a tl ih =>
    intro i h hp hall
    cases i with
    | zero => simp only [List.get] at hp; simp [List.find?_cons, hp]
    | succ j =>
      have ha : p a = false := by
        have := (List.all_eq_true.mp hall) a (by simp [List.take_succ_cons])
        simpa using this
      have htl : ((tl.take j).all (fun a => !p a)) = true := by
        rw [List.take_succ_cons, List.all_cons] at hall
        exact ((Bool.and_eq_true _ _) ▸ hall).2
      simp only [List.find?_cons, ha]
      exact ih j (Nat.lt_of_succ_lt_succ h) hp htl

/-- `filterMap` starts with the `i`-th element's value when it is the first
element on which `f` succeeds. -/
lemma filterMap_of_take_all {α β : Type} {f : α → Option β} :
    ∀ (l : List α) (i : Nat) (h : i < l.length) (b : β),
      f (l.get ⟨i, h⟩) = some b → ((l.take i).all (fun a => (f a).isNone)) = true →
      ∃ tl, l.filterMap f = b :: tl := by
  intro l
  induction l with
  | nil => intro i h; exact absurd h (Nat.not_lt_zero i)
  | cons a tl ih =>
    intro i h b hb hall
    cases i with
    | zero =>
      simp only [List.get] at hb
      exact ⟨tl.filterMap f, by rw [List.filterMap_cons, hb]⟩
    | succ j =>
      have ha : (f a).isNone = true := by
        have := (List.all_eq_true.mp hall) a (by simp [List.take_succ_cons])
        simpa using this
      have htl : ((tl.take j).all (fun a => (f a).isNone)) = true := by
        rw [List.take_succ_cons, List.all_cons] at hall
        exact ((Bool.and_eq_true _ _) ▸ hall).2
      have hfa : f a = none := Option.isNone_iff_eq_none.mp ha
      rw [List.filterMap_cons, hfa]
      exact ih j (Nat.lt_of_succ_lt_succ h) b hb htl

lemma extract_by_keywords_of_no_match {t : Table} {keys : List String}
    (h : aliasMatched t keys = false) :
    extract_by_keywords t keys = List.replicate t.nrows "" := by
  unfold extract_by_keywords
  have : t.cols.find? (keyMatch keys) = none := by
    rw [List.find?_eq_none]
    intro c hc hk
    have := List.any_eq_true.mpr ⟨c, hc, hk⟩
    rw [aliasMatched] at h
    simp [this] at h
  rw [this]

lemma extract_by_keywords_length {t : Table} (hwf : t.WF) (keys : List String) :
    (extract_by_keywords t keys).length = t.nrows := by
  unfold extract_by_keywords
  cases hfind : t.cols.find? (keyMatch keys) with
  | none => simp
  | some c => exact hwf c (List.mem_of_find?_eq_some hfind)

lemma getD_mem_of_lt {α : Type} {l : List α} {i : Nat} (h : i < l.length) (d : α) :
    l.getD i d ∈ l := by
  rw [List.getD_eq_getElem?_getD, List.getElem?_eq_getElem h]
  exact List.getElem_mem h

lemma phoneCandidates_mem_length {t : Table} (hwf : t.WF) {p : List String}
    (hp : p ∈ phoneCandidates t) : p.length = t.nrows := by
  rcases List.mem_filterMap.mp hp with ⟨c, hc, hfc⟩
  unfold phoneCandOf at hfc
  by_cases hcond : ((c.2.map stripNonDigits).any (fun d => d.length == 10)) = true
  · rw [if_pos hcond] at hfc
    cases hfc
    simp [hwf c hc]
  · rw [if_neg hcond] at hfc
    exact absurd hfc (by simp)

lemma emailCandidates_mem_length {t : Table} (hwf : t.WF) {p : List String}
    (hp : p ∈ emailCandidates t) : p.length = t.nrows := by
  rcases List.mem_filterMap.mp hp with ⟨c, hc, hfc⟩
  unfold emailCandOf at hfc
  by_cases hcond : (c.2.any (fun s => s.toList.contains '@')) = true
  · rw [if_pos hcond] at hfc
    cases hfc
    exact hwf c hc
  · rw [if_neg hcond] at hfc
    exact absurd hfc (by simp)

lemma extract_phones_getD_length {t : Table} (hwf : t.WF) (k : Nat) :
    ((extract_phones t).getD k (List.replicate t.nrows "")).length = t.nrows := by
  unfold extract_phones
  rcases Nat.lt_or_ge k ((phoneCandidates t).take 3).length with h | h
  · rw [List.getD_append _ _ _ k h]
    have hmem : ((phoneCandidates t).take 3).getD k (List.replicate t.nrows "")
        ∈ (phoneCandidates t).take 3 := getD_mem_of_lt h _
    exact phoneCandidates_mem_length hwf (List.take_subset 3 _ hmem)
  · rw [List.getD_append_right _ _ _ k h]
    rcases Nat.lt_or_ge (k - ((phoneCandidates t).take 3).length)
        (3 - ((phoneCandidates t).take 3).length) with h2 | h2
    · have hmem := getD_mem_of_lt (l := List.replicate (3 - ((phoneCandidates t).take 3).length)
        (List.replicate t.nrows "")) (i := k - ((phoneCandidates t).take 3).length)
        (by simpa using h2) (List.replicate t.nrows "")
      rw [List.eq_of_mem_replicate hmem]
      simp
    · rw [List.getD_eq_getElem?_getD, List.getElem?_eq_none (by simpa using h2)]
      simp

lemma extract_phones_getD_of_few {t : Table} {k : Nat} (hk : k < 3)
    (h : (phoneCandidates t).length ≤ k) :
    (extract_phones t).getD k (List.replicate t.nrows "")
      = List.replicate t.nrows "" := by
  unfold extract_phones
  have hlen : ((phoneCandidates t).take 3).length = (phoneCandidates t).length := by
    rw [List.length_take]
    omega
  rw [List.getD_append_right _ _ _ k (by omega)]
  rw [hlen]
  rcases Nat.lt_or_ge (k - (phoneCandidates t).length) (3 - (phoneCandidates t).length)
      with h2 | h2
  · have hmem := getD_mem_of_lt (l := List.replicate (3 - (phoneCandidates t).length)
      (List.replicate t.nrows "")) (i := k - (phoneCandidates t).length)
      (by simpa using h2) (List.replicate t.nrows "")
    exact List.eq_of_mem_replicate hmem
  · rw [List.getD_eq_getElem?_getD, List.getElem?_eq_none (by simpa using h2)]
    rfl

lemma extract_emails_getD_length {t : Table} (hwf : t.WF) (k : Nat) :
    ((extract_emails t).getD k (List.replicate t.nrows "")).length = t.nrows := by
  unfold extract_emails
  rcases Nat.lt_or_ge k ((emailCandidates t).take 2).length with h | h
  · rw [List.getD_append _ _ _ k h]
    have hmem : ((emailCandidates t).take 2).getD k (List.replicate t.nrows "")
        ∈ (emailCandidates t).take 2 := getD_mem_of_lt h _
    exact emailCandidates_mem_length hwf (List.take_subset 2 _ hmem)
  · rw [List.getD_append_right _ _ _ k h]
    rcases Nat.lt_or_ge (k - ((emailCandidates t).take 2).length)
        (2 - ((emailCandidates t).take 2).length) with h2 | h2
    · have hmem := getD_mem_of_lt (l := List.replicate (2 - ((emailCandidates t).take 2).length)
        (List.replicate t.nrows "")) (i := k - ((emailCandidates t).take 2).length)
        (by simpa using h2) (List.replicate t.nrows "")
      rw [List.eq_of_mem_replicate hmem]
      simp
    · rw [List.getD_eq_getElem?_getD, List.getElem?_eq_none (by simpa using h2)]
      simp

lemma extract_emails_getD_of_few {t : Table} {k : Nat} (hk : k < 2)
    (h : (emailCandidates t).length ≤ k) :
    (extract_emails t).getD k (List.replicate t.nrows "")
      = List.replicate t.nrows "" := by
  unfold extract_emails
  have hlen : ((emailCandidates t).take 2).length = (emailCandidates t).length := by
    rw [List.length_take]
    omega
  rw [List.getD_append_right _ _ _ k (by omega)]
  rw [hlen]
  rcases Nat.lt_or_ge (k - (emailCandidates t).length) (2 - (emailCandidates t).length)
      with h2 | h2
  · have hmem := getD_mem_of_lt (l := List.replicate (2 - (emailCandidates t).length)
      (List.replicate t.nrows "")) (i := k - (emailCandidates t).length)
      (by simpa using h2) (List.replicate t.nrows "")
    exact List.eq_of_mem_replicate hmem
  · rw [List.getD_eq_getElem?_getD, List.getElem?_eq_none (by simpa using h2)]
    rfl

lemma extract_dobs_length {t : Table} (hwf : t.WF) :
    (extract_dobs t).length = t.nrows := by
  unfold extract_dobs
  cases hfind : t.cols.find? (fun c => isDobCandidate c.2) with
  | none => simp
  | some c => simp [hwf c (List.mem_of_find?_eq_some hfind)]

lemma extract_bsd_length {t : Table} (hwf : t.WF) :
    (extract_bsd t).length = t.nrows := by
  unfold extract_bsd
  cases hfind : t.cols.find? (fun c => isBsdCandidate c.2) with
  | none => simp
  | some c => simp [hwf c (List.mem_of_find?_eq_some hfind)]

lemma extract_lead_date_length {t : Table} (hwf : t.WF) :
    (extract_lead_date t).length = t.nrows := by
  unfold extract_lead_date
  cases hcols : t.cols with
  | nil => simp
  | cons c rest =>
    by_cases hcand : isLeadCandidate c.2
    · simp only [hcand, if_true, List.length_map]
      exact hwf c (by rw [hcols]; exact List.mem_cons_self c rest)
    · simp [hcand]

lemma fullNameCol_length {t : Table} (hwf : t.WF) :
    (fullNameCol t).length = t.nrows := by
  unfold fullNameCol
  rw [List.length_zipWith, extract_by_keywords_length hwf,
    extract_by_keywords_length hwf, min_self]

lemma fullNameCol_of_no_match {t : Table}
    (h1 : aliasMatched t first_name_aliases = false)
    (h2 : aliasMatched t last_name_aliases = false) :
    fullNameCol t = List.replicate t.nrows "" := by
  unfold fullNameCol
  rw [extract_by_keywords_of_no_match h1, extract_by_keywords_of_no_match h2,
    List.zipWith_replicate, min_self]
  rfl

/-! ### The cleaned columns, by name -/

lemma getCol_clean_lead (t : Table) :
    getCol (clean t) "Lead Date" = extract_lead_date t := rfl

lemma getCol_clean_businessName (t : Table) :
    getCol (clean t) "Business Name" = extract_by_keywords t business_name_aliases := rfl

lemma getCol_clean_fullName (t : Table) :
    getCol (clean t) "Full Name" = fullNameCol t := rfl

lemma getCol_clean_ssn (t : Table) :
    getCol (clean t) "SSN" = extract_by_keywords t ssn_aliases := rfl

lemma getCol_clean_dob (t : Table) :
    getCol (clean t) "DOB" = extract_dobs t := rfl

lemma getCol_clean_industry (t : Table) :
    getCol (clean t) "Industry" = extract_by_keywords t industry_aliases := rfl

lemma getCol_clean_ein (t : Table) :
    getCol (clean t) "EIN" = extract_by_keywords t ein_aliases := rfl

lemma getCol_clean_bsd (t : Table) :
    getCol (clean t) "Business Start Date" = extract_bsd t := rfl

lemma getCol_clean_phone1 (t : Table) :
    getCol (clean t) "Phone 1" = (extract_phones t).getD 0 (List.replicate t.nrows "") := rfl

lemma getCol_clean_phone2 (t : Table) :
    getCol (clean t) "Phone 2" = (extract_phones t).getD 1 (List.replicate t.nrows "") := rfl

lemma getCol_clean_phone3 (t : Table) :
    getCol (clean t) "Phone 3" = (extract_phones t).getD 2 (List.replicate t.nrows "") := rfl

lemma getCol_clean_email1 (t : Table) :
    getCol (clean t) "Email 1" = (extract_emails t).getD 0 (List.replicate t.nrows "") := rfl

lemma getCol_clean_email2 (t : Table) :
    getCol (clean t) "Email 2" = (extract_emails t).getD 1 (List.replicate t.nrows "") := rfl

lemma getCol_clean_bizAddr (t : Table) :
    getCol (clean t) "Business Address" = extract_by_keywords t address_aliases := rfl

lemma getCol_clean_homeAddr (t : Table) :
    getCol (clean t) "Home Address" = extract_by_keywords t home_address_keys := rfl

lemma getCol_clean_revenue (t : Table) :
    getCol (clean t) "Monthly Revenue" = extract_by_keywords t revenue_aliases := rfl

/-- Whether some source column supplies the given target field, field by field
following the extractor that fills it. -/
def fieldMatched (t : Table) (f : String) : Bool :=
  match f with
  | "Lead Date" =>
    match t.cols with
    | [] => false
    | c :: _ => isLeadCandidate c.2
  | "Business Name" => aliasMatched t business_name_aliases
  | "Full Name" => aliasMatched t first_name_aliases || aliasMatched t last_name_aliases
  | "SSN" => aliasMatched t ssn_aliases
  | "DOB" => t.cols.any (fun c => isDobCandidate c.2)
  | "Industry" => aliasMatched t industry_aliases
  | "EIN" => aliasMatched t ein_aliases
  | "Business Start Date" => t.cols.any (fun c => isBsdCandidate c.2)
  | "Phone 1" => 1 ≤ (phoneCandidates t).length
  | "Phone 2" => 2 ≤ (phoneCandidates t).length
  | "Phone 3" => 3 ≤ (phoneCandidates t).length
  | "Email 1" => 1 ≤ (emailCandidates t).length
  | "Email 2" => 2 ≤ (emailCandidates t).length
  | "Business Address" => aliasMatched t address_aliases
  | "Home Address" => aliasMatched t home_address_keys
  | "Monthly Revenue" => aliasMatched t revenue_aliases
  | _ => false

lemma extract_dobs_of_no_cand {t : Table}
    (h : (t.cols.any (fun c => isDobCandidate c.2)) = false) :
    extract_dobs t = List.replicate t.nrows "" := by
  unfold extract_dobs
  have : t.cols.find? (fun c => isDobCandidate c.2) = none := by
    rw [List.find?_eq_none]
    intro c hc hk
    have hany : t.cols.any (fun c => isDobCandidate c.2) = true :=
      List.any_eq_true.mpr ⟨c, hc, hk⟩
    simp [hany] at h
  rw [this]

lemma extract_bsd_of_no_cand {t : Table}
    (h : (t.cols.any (fun c => isBsdCandidate c.2)) = false) :
    extract_bsd t = List.replicate t.nrows "" := by
  unfold extract_bsd
  have : t.cols.find? (fun c => isBsdCandidate c.2) = none := by
    rw [List.find?_eq_none]
    intro c hc hk
    have hany : t.cols.any (fun c => isBsdCandidate c.2) = true :=
      List.any_eq_true.mpr ⟨c, hc, hk⟩
    simp [hany] at h
  rw [this]

/-! ### Claim C1 -/

/-- Concrete table for the C1 witness: one unrecognised column, two rows. -/
def tableC1 : Table := ⟨[("zzz", ["a", "b"])], 2⟩

/-- The cleaned output is well-formed: every output column has `t.nrows` cells. -/
lemma clean_WF {t : Table} (hwf : t.WF) : (clean t).WF := by
  intro c hc
  simp only [clean, List.mem_cons, List.not_mem_nil, or_false] at hc
  rcases hc with rfl|rfl|rfl|rfl|rfl|rfl|rfl|rfl|rfl|rfl|rfl|rfl|rfl|rfl|rfl|rfl
  · exact extract_lead_date_length hwf
  · exact extract_by_keywords_length hwf _
  · exact fullNameCol_length hwf
  · exact extract_by_keywords_length hwf _
  · exact extract_dobs_length hwf
  · exact extract_by_keywords_length hwf _
  · exact extract_by_keywords_length hwf _
  · exact extract_bsd_length hwf
  · exact extract_phones_getD_length hwf 0
  · exact extract_phones_getD_length hwf 1
  · exact extract_phones_getD_length hwf 2
  · exact extract_emails_getD_length hwf 0
  · exact extract_emails_getD_length hwf 1
  · exact extract_by_keywords_length hwf _
  · exact extract_by_keywords_length hwf _
  · exact extract_by_keywords_length hwf _

/-- A target field that no source column supplies is all empty strings. -/
lemma clean_unmatched_empty {t : Table} (hne : t.cols ≠ []) :
    ∀ f ∈ FINAL_COLUMNS, fieldMatched t f = false →
      getCol (clean t) f = List.replicate t.nrows "" := by
  intro f hf hm
  simp only [FINAL_COLUMNS, List.mem_cons, List.not_mem_nil, or_false] at hf
  rcases hf with rfl|rfl|rfl|rfl|rfl|rfl|rfl|rfl|rfl|rfl|rfl|rfl|rfl|rfl|rfl|rfl
  · rcases List.exists_cons_of_ne_nil hne with ⟨c, rest, htc⟩
    rw [getCol_clean_lead]
    unfold extract_lead_date
    rw [htc]
    have hm' : (match t.cols with
        | [] => false
        | c :: _ => isLeadCandidate c.2) = false := hm
    rw [htc] at hm'
    have hcand : isLeadCandidate c.2 = false := hm'
    simp [hcand]
  · rw [getCol_clean_businessName]
    exact extract_by_keywords_of_no_match hm
  · rw [getCol_clean_fullName]
    have hm' : (aliasMatched t first_name_aliases
        || aliasMatched t last_name_aliases) = false := hm
    rw [Bool.or_eq_false_iff] at hm'
    exact fullNameCol_of_no_match hm'.1 hm'.2
  · rw [getCol_clean_ssn]
    exact extract_by_keywords_of_no_match hm
  · rw [getCol_clean_dob]
    exact extract_dobs_of_no_cand hm
  · rw [getCol_clean_industry]
    exact extract_by_keywords_of_no_match hm
  · rw [getCol_clean_ein]
    exact extract_by_keywords_of_no_match hm
  · rw [getCol_clean_bsd]
    exact extract_bsd_of_no_cand hm
  · rw [getCol_clean_phone1]
    have hlen : (phoneCandidates t).length ≤ 0 := by
      have := of_decide_eq_false hm
      omega
    exact extract_phones_getD_of_few (by omega) hlen
  · rw [getCol_clean_phone2]
    have hlen : (phoneCandidates t).length ≤ 1 := by
      have := of_decide_eq_false hm
      omega
    exact extract_phones_getD_of_few (by omega) hlen
  · rw [getCol_clean_phone3]
    have hlen : (phoneCandidates t).length ≤ 2 := by
      have := of_decide_eq_false hm
      omega
    exact extract_phones_getD_of_few (by omega) hlen
  · rw [getCol_clean_email1]
    have hlen : (emailCandidates t).length ≤ 0 := by
      have := of_decide_eq_false hm
      omega
    exact extract_emails_getD_of_few (by omega) hlen
  · rw [getCol_clean_email2]
    have hlen : (emailCandidates t).length ≤ 1 := by
      have := of_decide_eq_false hm
      omega
    exact extract_emails_getD_of_few (by omega) hlen
  · rw [getCol_clean_bizAddr]
    exact extract_by_keywords_of_no_match hm
  · rw [getCol_clean_homeAddr]
    exact extract_by_keywords_of_no_match hm
  · rw [getCol_clean_revenue]
    exact extract_by_keywords_of_no_match hm

/-- C1: for every well-formed input table with at least one column (as
`pd.read_csv` guarantees), the cleaned output carries exactly the
`FINAL_COLUMNS` schema in order, has exactly one row per input row (the row
count is preserved and every column is produced in source row order), and any
target field that no source column supplies is a column of empty strings. -/
theorem c1_output_has_full_schema (t : Table) (hwf : t.WF) (hne : t.cols ≠ []) :
    (clean t).cols.map Prod.fst = FINAL_COLUMNS ∧
    (clean t).nrows = t.nrows ∧ (clean t).WF ∧
    (∀ f ∈ FINAL_COLUMNS, fieldMatched t f = false →
      getCol (clean t) f = List.replicate t.nrows "") :=
  ⟨rfl, rfl, clean_WF hwf, clean_unmatched_empty hne⟩

/-- Witness for C1 at a concrete two-row table with one unrecognised column. -/
theorem c1_output_has_full_schema_witness :
    (clean tableC1).cols.map Prod.fst = FINAL_COLUMNS ∧
    (clean tableC1).nrows = tableC1.nrows ∧ (clean tableC1).WF ∧
    (∀ f ∈ FINAL_COLUMNS, fieldMatched tableC1 f = false →
      getCol (clean tableC1) f = List.replicate tableC1.nrows "") :=
  c1_output_has_full_schema tableC1 (by decide) (by decide)

/-! ### Claim C6 -/

lemma getD_zipWith_of_lt {α β γ : Type} (f : α → β → γ) {as : List α} {bs : List β}
    {i : Nat} (ha : i < as.length) (hb : i < bs.length) (d : γ) (da : α) (db : β) :
    (List.zipWith f as bs).getD i d = f (as.getD i da) (bs.getD i db) := by
  rw [List.getD_eq_getElem?_getD, List.getD_eq_getElem?_getD, List.getD_eq_getElem?_getD,
    List.getElem?_zipWith, List.getElem?_eq_getElem ha, List.getElem?_eq_getElem hb]
  rfl

/-- Concrete table for the C6 witness: first/last name columns, one row with
Jane/Doe and one row with both components empty. -/
def tableC6 : Table := ⟨[("firstname", ["Jane", ""]), ("lastname", ["Doe", ""])], 2⟩

/-- C6: the output `Full Name` cell is the first-name cell, one space, and the
last-name cell, passed through `str.strip()`; in particular Jane/Doe gives
`"Jane Doe"` and two empty components give `""` (never `" "`).  app1.py never
consults a full-name column, so the "no full-name column" qualification of the
claim holds vacuously for every table. -/
theorem c6_full_name_synthesis (t : Table) (hwf : t.WF) (i : Nat) (hi : i < t.nrows) :
    (getCol (clean t) "Full Name").getD i ""
      = pyStrip (((extract_by_keywords t first_name_aliases).getD i "") ++ " " ++
          ((extract_by_keywords t last_name_aliases).getD i "")) ∧
    (((extract_by_keywords t first_name_aliases).getD i "") = "Jane" →
     ((extract_by_keywords t last_name_aliases).getD i "") = "Doe" →
     (getCol (clean t) "Full Name").getD i "" = "Jane Doe") ∧
    (((extract_by_keywords t first_name_aliases).getD i "") = "" →
     ((extract_by_keywords t last_name_aliases).getD i "") = "" →
     (getCol (clean t) "Full Name").getD i "" = "") := by
  have hfl : i < (extract_by_keywords t first_name_aliases).length := by
    rw [extract_by_keywords_length hwf]
    exact hi
  have hll : i < (extract_by_keywords t last_name_aliases).length := by
    rw [extract_by_keywords_length hwf]
    exact hi
  have hbase : (getCol (clean t) "Full Name").getD i ""
      = pyStrip (((extract_by_keywords t first_name_aliases).getD i "") ++ " " ++
          ((extract_by_keywords t last_name_aliases).getD i "")) := by
    rw [getCol_clean_fullName]
    unfold fullNameCol
    exact getD_zipWith_of_lt _ hfl hll "" "" ""
  refine ⟨hbase, ?_, ?_⟩
  · intro hf hl
    rw [hbase, hf, hl]
    decide
  · intro hf hl
    rw [hbase, hf, hl]
    decide

/-- Witness for C6: Jane/Doe synthesises to `"Jane Doe"`, two empty components
to `""`. -/
theorem c6_full_name_synthesis_witness :
    (getCol (clean tableC6) "Full Name").getD 0 "" = "Jane Doe" ∧
    (getCol (clean tableC6) "Full Name").getD 1 "" = "" := by
  constructor
  · exact (c6_full_name_synthesis tableC6 (by decide) 0 (by decide)).2.1
      (by decide) (by decide)
  · exact (c6_full_name_synthesis tableC6 (by decide) 1 (by decide)).2.2
      (by decide) (by decide)

/-! ### Claim C7 -/

/-- Concrete table for the C7 counterexample: a single source column whose
header matches no alias list. -/
def tableC7 : Table := ⟨[("randomstuff", ["x"])], 1⟩

/-- C7 counterexample: the `randomstuff` column matches no alias list of the
cleaner, yet the cleaned output consists of exactly the 16 target columns and
does not carry `randomstuff` — unmatched source columns are dropped, not
appended. -/
theorem c7_unmatched_column_dropped_cex :
    (∀ keys ∈ [first_name_aliases, last_name_aliases, full_name_aliases, ssn_aliases,
        ein_aliases, dob_aliases, business_name_aliases, industry_aliases, phone_aliases,
        email_aliases, revenue_aliases, address_aliases, home_address_keys],
      aliasMatched tableC7 keys = false) ∧
    (clean tableC7).cols.map Prod.fst = FINAL_COLUMNS ∧
    "randomstuff" ∉ (clean tableC7).cols.map Prod.fst := by decide

/-- C7 amended: the cleaned output always consists of exactly the 16 target
columns; source columns that matched no target field are not preserved (the
original table is only displayed separately, never merged into the download). -/
theorem c7_output_exactly_final_columns (t : Table) :
    (clean t).cols.map Prod.fst = FINAL_COLUMNS := rfl

/-! ### Claim C8 -/

/-- Concrete table for the C8 counterexample: two source columns that both
map to Business Name, carrying different values. -/
def tableC8 : Table := ⟨[("company", ["Acme"]), ("businessname", ["Beta"])], 1⟩

/-- Concrete table for the C8 witness: a non-matching column followed by a
matching one. -/
def tableC8w : Table := ⟨[("zzz", ["q"]), ("company", ["Acme"])], 1⟩

/-- C8 counterexample: `company` and `businessname` both map to Business Name,
yet the output takes the value of the EARLIER column (`extract_by_keywords`
returns on the first match) — not "last write wins". -/
theorem c8_last_write_wins_cex :
    keyMatch business_name_aliases ("company", ["Acme"]) = true ∧
    keyMatch business_name_aliases ("businessname", ["Beta"]) = true ∧
    getCol (clean tableC8) "Business Name" = ["Acme"] ∧
    getCol (clean tableC8) "Business Name" ≠ ["Beta"] := by decide

/-- C8 amended: when several source columns map to the same target field, the
FIRST matching column in iteration order supplies the value (`for col in
df.columns: ... return df[col]` returns on the first hit); later matching
columns are ignored. -/
theorem c8_first_match_wins (t : Table) (keys : List String) (i : Nat)
    (h : i < t.cols.length)
    (hp : keyMatch keys (t.cols.get ⟨i, h⟩) = true)
    (hfirst : ((t.cols.take i).all (fun c => !keyMatch keys c)) = true) :
    extract_by_keywords t keys = (t.cols.get ⟨i, h⟩).2 := by
  unfold extract_by_keywords
  rw [find?_of_take_all t.cols i h hp hfirst]

/-- Witness for C8: with a non-matching first column, the second column
supplies Business Name. -/
theorem c8_first_match_wins_witness :
    extract_by_keywords tableC8w business_name_aliases = ["Acme"] :=
  c8_first_match_wins tableC8w business_name_aliases 1 (by decide) (by decide) (by decide)

/-! ### Claim C4 -/

/-- Spec-side predicate, from the claim's words: a value shaped like
`123-45-6789`. -/
def isSSNShape (s : String) : Bool :=
  match s.toList with
  | [a, b, c, '-', d, e, '-', f, g, h, i] => [a, b, c, d, e, f, g, h, i].all Char.isDigit
  | _ => false

/-- Spec-side predicate, from the claim's words: a value shaped like
`12-3456789`. -/
def isEINShape (s : String) : Bool :=
  match s.toList with
  | [a, b, '-', c, d, e, f, g, h, i] => [a, b, c, d, e, f, g, h, i].all Char.isDigit
  | _ => false

/-- Concrete table for C4: a column of 100% SSN-shaped values and a column of
100% EIN-shaped values, neither header matching any alias. -/
def tableC4 : Table :=
  ⟨[("mystery", ["123-45-6789", "987-65-4321"]),
    ("weird", ["12-3456789", "98-7654321"])], 2⟩

/-- C4 counterexample: every value of `mystery` is SSN-shaped and every value
of `weird` is EIN-shaped, no header alias matches, yet the output SSN and EIN
fields stay empty — app1.py has no value-shape fallback at all. -/
theorem c4_shape_classification_cex :
    ((tableC4.cols.get ⟨0, by decide⟩).2.all isSSNShape) = true ∧
    ((tableC4.cols.get ⟨1, by decide⟩).2.all isEINShape) = true ∧
    aliasMatched tableC4 ssn_aliases = false ∧
    aliasMatched tableC4 ein_aliases = false ∧
    getCol (clean tableC4) "SSN" = ["", ""] ∧
    getCol (clean tableC4) "EIN" = ["", ""] := by decide

/-- C4 amended: SSN and EIN are filled exclusively by header-alias matching;
when no header matches the respective alias list, the output field is all
empty strings regardless of how the column values are shaped. -/
theorem c4_ssn_ein_alias_only (t : Table)
    (h1 : aliasMatched t ssn_aliases = false)
    (h2 : aliasMatched t ein_aliases = false) :
    getCol (clean t) "SSN" = List.replicate t.nrows "" ∧
    getCol (clean t) "EIN" = List.replicate t.nrows "" := by
  refine ⟨?_, ?_⟩
  · rw [getCol_clean_ssn]
    exact extract_by_keywords_of_no_match h1
  · rw [getCol_clean_ein]
    exact extract_by_keywords_of_no_match h2

/-- Witness for the amended C4 at the shape-only table. -/
theorem c4_ssn_ein_alias_only_witness :
    getCol (clean tableC4) "SSN" = List.replicate tableC4.nrows "" ∧
    getCol (clean tableC4) "EIN" = List.replicate tableC4.nrows "" :=
  c4_ssn_ein_alias_only tableC4 (by decide) (by decide)

/-! ### Claim C2 -/

/-- Concrete table for the C2 counterexample: one phone-bearing column. -/
def tableC2 : Table := ⟨[("cell", ["555-123-4567"])], 1⟩

lemma getD_mem_or_default {α : Type} (l : List α) (i : Nat) (d : α) :
    l.getD i d ∈ l ∨ l.getD i d = d := by
  rcases Nat.lt_or_ge i l.length with h | h
  · exact Or.inl (getD_mem_of_lt h d)
  · exact Or.inr (List.getD_eq_default l d h)

/-- Every cell of every column produced by `extract_phones` is either empty or
a 10-digit string obtained by stripping non-digits from some source cell. -/
lemma extract_phones_cell_shape {t : Table} {col : List String} {cell : String}
    (hcol : col ∈ extract_phones t) (hcell : cell ∈ col) :
    cell = "" ∨ (cell.length = 10 ∧ cell.toList.all Char.isDigit = true ∧
      ∃ c ∈ t.cols, ∃ v ∈ c.2, cell = stripNonDigits v) := by
  unfold extract_phones at hcol
  rcases List.mem_append.mp hcol with hmem | hmem
  · have hcand : col ∈ phoneCandidates t := List.take_subset 3 _ hmem
    rcases List.mem_filterMap.mp hcand with ⟨c, hc, hfc⟩
    unfold phoneCandOf at hfc
    by_cases hcond : ((c.2.map stripNonDigits).any (fun d => d.length == 10)) = true
    · rw [if_pos hcond] at hfc
      cases hfc
      rcases List.mem_map.mp hcell with ⟨d, hd, rfl⟩
      rcases List.mem_map.mp hd with ⟨v, hv, rfl⟩
      by_cases hlen : ((stripNonDigits v).length == 10) = true
      · rw [if_pos hlen]
        refine Or.inr ⟨eq_of_beq hlen, ?_, c, hc, v, hv, rfl⟩
        exact List.all_eq_true.mpr fun x hx => (List.mem_filter.mp hx).2
      · rw [if_neg hlen]
        exact Or.inl rfl
    · rw [if_neg hcond] at hfc
      exact absurd hfc (by simp)
  · have : col = List.replicate t.nrows "" := List.eq_of_mem_replicate hmem
    subst this
    exact Or.inl (List.eq_of_mem_replicate hcell)

lemma phoneCandOf_isNone_iff (cells : List String) :
    (phoneCandOf cells).isNone
      = !((cells.map stripNonDigits).any (fun d => d.length == 10)) := by
  unfold phoneCandOf
  by_cases h : ((cells.map stripNonDigits).any (fun d => d.length == 10)) = true
  · rw [if_pos h, h]
    rfl
  · rw [if_neg h, Bool.eq_false_iff.mpr h]
    rfl

/-- C2 counterexample: a cell with exactly 10 digits after stripping yields
the bare digit string `5551234567` in Phone 1, not `(555) 123-4567` — the
code never formats phone numbers. -/
theorem c2_phone_formatting_cex :
    stripNonDigits "555-123-4567" = "5551234567" ∧
    (stripNonDigits "555-123-4567").length = 10 ∧
    getCol (clean tableC2) "Phone 1" = ["5551234567"] ∧
    getCol (clean tableC2) "Phone 1" ≠ ["(555) 123-4567"] := by decide

/-- C2 amended: every Phone 1/2/3 cell is either empty or the bare 10-digit
string obtained by stripping non-digits from a source cell (no
`(NNN) NNN-NNNN` formatting exists); moreover the first source column with a
10-digit cell supplies Phone 1 cell-wise: exactly-10-digit cells pass through
stripped, all other cells become empty (pandas `NaN`, empty in the CSV). -/
theorem c2_phone_digits_passthrough (t : Table) :
    (∀ name ∈ ["Phone 1", "Phone 2", "Phone 3"], ∀ cell ∈ getCol (clean t) name,
      cell = "" ∨ (cell.length = 10 ∧ cell.toList.all Char.isDigit = true ∧
        ∃ c ∈ t.cols, ∃ v ∈ c.2, cell = stripNonDigits v)) ∧
    (∀ i (h : i < t.cols.length),
      (((t.cols.get ⟨i, h⟩).2.map stripNonDigits).any (fun d => d.length == 10)) = true →
      ((t.cols.take i).all
        (fun c => !((c.2.map stripNonDigits).any (fun d => d.length == 10)))) = true →
      getCol (clean t) "Phone 1"
        = ((t.cols.get ⟨i, h⟩).2.map stripNonDigits).map
            (fun d => if d.length == 10 then d else "")) := by
  constructor
  · intro name hname cell hcell
    simp only [List.mem_cons, List.not_mem_nil, or_false] at hname
    rcases hname with rfl | rfl | rfl
    · rw [getCol_clean_phone1] at hcell
      rcases getD_mem_or_default (extract_phones t) 0 (List.replicate t.nrows "") with h | h
      · exact extract_phones_cell_shape h hcell
      · rw [h] at hcell
        exact Or.inl (List.eq_of_mem_replicate hcell)
    · rw [getCol_clean_phone2] at hcell
      rcases getD_mem_or_default (extract_phones t) 1 (List.replicate t.nrows "") with h | h
      · exact extract_phones_cell_shape h hcell
      · rw [h] at hcell
        exact Or.inl (List.eq_of_mem_replicate hcell)
    · rw [getCol_clean_phone3] at hcell
      rcases getD_mem_or_default (extract_phones t) 2 (List.replicate t.nrows "") with h | h
      · exact extract_phones_cell_shape h hcell
      · rw [h] at hcell
        exact Or.inl (List.eq_of_mem_replicate hcell)
  · intro i h hp hfirst
    have hsome : phoneCandOf (t.cols.get ⟨i, h⟩).2
        = some (((t.cols.get ⟨i, h⟩).2.map stripNonDigits).map
            (fun d => if d.length == 10 then d else "")) := by
      unfold phoneCandOf
      rw [if_pos hp]
    have hall : ((t.cols.take i).all (fun c => (phoneCandOf c.2).isNone)) = true := by
      rw [List.all_eq_true]
      intro c hc
      rw [phoneCandOf_isNone_iff]
      exact (List.all_eq_true.mp hfirst) c hc
    obtain ⟨tl, htl⟩ := filterMap_of_take_all t.cols i h _ hsome hall
    rw [getCol_clean_phone1]
    unfold extract_phones phoneCandidates
    rw [htl]
    rfl

/-- Witness for the amended C2 at the concrete phone table. -/
theorem c2_phone_digits_passthrough_witness :
    getCol (clean tableC2) "Phone 1"
      = ((tableC2.cols.get ⟨0, by decide⟩).2.map stripNonDigits).map
          (fun d => if d.length == 10 then d else "") :=
  (c2_phone_digits_passthrough tableC2).2 0 (by decide) (by decide) (by decide)

/-! ### Claim C3 -/

/-- Concrete table for the C3 counterexample: a column of dates in 2001,
strictly between 2000 and the claim's `approximately 2005` boundary. -/
def tableC3 : Table := ⟨[("col", ["2001-05-05", "2001-06-06"])], 2⟩

/-- Concrete table for the C3 witness, DOB part. -/
def tableC3w : Table := ⟨[("who", ["bob"]), ("when", ["1980-01-01"])], 1⟩

/-- Concrete table for the C3 witness, Business Start Date part. -/
def tableC3b : Table := ⟨[("started", ["2012-03-04"])], 1⟩

/-- C3 counterexample: a column whose parsed years are all 2001 — inside the
claim's "ignored" window between 2000 and approximately 2005 — is classified
as Business Start Date by the code (the boundary is `>= 2000`, with no gap). -/
theorem c3_date_window_cex :
    parsedYears (tableC3.cols.get ⟨0, by decide⟩).2 = [2001, 2001] ∧
    getCol (clean tableC3) "Business Start Date"
      = ["2001-05-05 00:00:00", "2001-06-06 00:00:00"] ∧
    getCol (clean tableC3) "Business Start Date" ≠ ["", ""] := by decide

/-- C3 amended: every column (mapped or not) with at least one parseable date
and a strict majority of parsed years below 2000 (`isDobCandidate`) is a DOB
candidate; a strict majority of parsed years at or above 2000
(`isBsdCandidate`) makes a Business Start Date candidate — the boundary is
2000 for both, no date range is ignored, and only one parseable value (not a
majority of parseable values) is required.  The first candidate column in
column order supplies the field, rendered cell-wise (`NaT` for unparseable
cells). -/
theorem c3_date_classification (t : Table) :
    (∀ i (h : i < t.cols.length),
      isDobCandidate (t.cols.get ⟨i, h⟩).2 = true →
      ((t.cols.take i).all (fun c => !isDobCandidate c.2)) = true →
      getCol (clean t) "DOB" = (t.cols.get ⟨i, h⟩).2.map dateCellStr) ∧
    (∀ i (h : i < t.cols.length),
      isBsdCandidate (t.cols.get ⟨i, h⟩).2 = true →
      ((t.cols.take i).all (fun c => !isBsdCandidate c.2)) = true →
      getCol (clean t) "Business Start Date" = (t.cols.get ⟨i, h⟩).2.map dateCellStr) := by
  constructor
  · intro i h hp hfirst
    rw [getCol_clean_dob]
    unfold extract_dobs
    rw [find?_of_take_all t.cols i h hp hfirst]
  · intro i h hp hfirst
    rw [getCol_clean_bsd]
    unfold extract_bsd
    rw [find?_of_take_all t.cols i h hp hfirst]

/-- Witness for the amended C3: a 1980 column supplies DOB (skipping a
non-date column), a 2012 column supplies Business Start Date. -/
theorem c3_date_classification_witness :
    getCol (clean tableC3w) "DOB" = ["1980-01-01 00:00:00"] ∧
    getCol (clean tableC3b) "Business Start Date" = ["2012-03-04 00:00:00"] := by
  constructor
  · exact (c3_date_classification tableC3w).1 1 (by decide) (by decide) (by decide)
  · exact (c3_date_classification tableC3b).2 0 (by decide) (by decide) (by decide)

/-! ### Claim C5 -/

/-- A table whose headers are exactly `FINAL_COLUMNS` with arbitrary cells:
the shape of the cleaner's own output restricted to the target schema. -/
def mkTargetTable (n : Nat)
    (c0 c1 c2 c3 c4 c5 c6 c7 c8 c9 c10 c11 c12 c13 c14 c15 : List String) : Table :=
  ⟨[("Lead Date", c0), ("Business Name", c1), ("Full Name", c2), ("SSN", c3), ("DOB", c4),
    ("Industry", c5), ("EIN", c6), ("Business Start Date", c7), ("Phone 1", c8), ("Phone 2", c9),
    ("Phone 3", c10), ("Email 1", c11), ("Email 2", c12), ("Business Address", c13),
    ("Home Address", c14), ("Monthly Revenue", c15)], n⟩

/-- Concrete table for the C5 counterexample. -/
def tableC5 : Table := ⟨[("firstname", ["Jane"]), ("lastname", ["Doe"])], 1⟩

/-- C5 counterexample: `clean tableC5` consists of exactly the target-schema
columns (so restriction to the target schema is the identity on it), its Full
Name is `"Jane Doe"`, yet cleaning it again empties Full Name — the cleaner is
not idempotent on its own output. -/
theorem c5_idempotence_cex :
    (clean tableC5).cols.map Prod.fst = FINAL_COLUMNS ∧
    getCol (clean tableC5) "Full Name" = ["Jane Doe"] ∧
    getCol (clean (clean tableC5)) "Full Name" = [""] ∧
    clean (clean tableC5) ≠ clean tableC5 := by decide

/-- C5 amended: re-running the cleaner on a table whose headers are exactly
the target schema preserves the seven header-alias fields (Business Name,
SSN, Industry, EIN, Business Address, Home Address, Monthly Revenue)
cell-for-cell, but Full Name always comes back all-empty: it is rebuilt from
first/last-name columns, which the target schema does not carry.  (Derived
date/phone/email fields are re-detected from cell values and are not stable
either, e.g. a non-empty Lead Date column is the first Business Start Date
candidate of the second pass.) -/
theorem c5_second_pass_alias_fields_stable (n : Nat)
    (c0 c1 c2 c3 c4 c5 c6 c7 c8 c9 c10 c11 c12 c13 c14 c15 : List String) :
    getCol (clean (mkTargetTable n c0 c1 c2 c3 c4 c5 c6 c7 c8 c9 c10 c11 c12 c13 c14 c15))
        "Business Name" = c1 ∧
    getCol (clean (mkTargetTable n c0 c1 c2 c3 c4 c5 c6 c7 c8 c9 c10 c11 c12 c13 c14 c15))
        "SSN" = c3 ∧
    getCol (clean (mkTargetTable n c0 c1 c2 c3 c4 c5 c6 c7 c8 c9 c10 c11 c12 c13 c14 c15))
        "Industry" = c5 ∧
    getCol (clean (mkTargetTable n c0 c1 c2 c3 c4 c5 c6 c7 c8 c9 c10 c11 c12 c13 c14 c15))
        "EIN" = c6 ∧
    getCol (clean (mkTargetTable n c0 c1 c2 c3 c4 c5 c6 c7 c8 c9 c10 c11 c12 c13 c14 c15))
        "Business Address" = c13 ∧
    getCol (clean (mkTargetTable n c0 c1 c2 c3 c4 c5 c6 c7 c8 c9 c10 c11 c12 c13 c14 c15))
        "Home Address" = c14 ∧
    getCol (clean (mkTargetTable n c0 c1 c2 c3 c4 c5 c6 c7 c8 c9 c10 c11 c12 c13 c14 c15))
        "Monthly Revenue" = c15 ∧
    getCol (clean (mkTargetTable n c0 c1 c2 c3 c4 c5 c6 c7 c8 c9 c10 c11 c12 c13 c14 c15))
        "Full Name" = List.replicate n "" := by
  refine ⟨rfl, rfl, rfl, rfl, rfl, rfl, rfl, ?_⟩
  have h1 : aliasMatched
      (mkTargetTable n c0 c1 c2 c3 c4 c5 c6 c7 c8 c9 c10 c11 c12 c13 c14 c15)
      first_name_aliases = false := rfl
  have h2 : aliasMatched
      (mkTargetTable n c0 c1 c2 c3 c4 c5 c6 c7 c8 c9 c10 c11 c12 c13 c14 c15)
      last_name_aliases = false := rfl
  rw [getCol_clean_fullName, fullNameCol_of_no_match h1 h2]
  rfl

/-! ### Claim C9 -/

/-- Concrete table for the C9 counterexample: a majority-1980s date column
containing one malformed cell. -/
def tableC9 : Table := ⟨[("d", ["1980-01-01", "1985-05-05", "garbage"])], 3⟩

/-- Every rendered date cell is the `str()` of a parsed timestamp or `"NaT"`. -/
lemma dateCellStr_cases (v : String) :
    dateCellStr v = "NaT" ∨ ∃ d : PyDate, dateCellStr v = pyDateStr d := by
  unfold dateCellStr
  cases parseDate v with
  | none => exact Or.inl rfl
  | some d => exact Or.inr ⟨d, rfl⟩

/-- C9 counterexample: in a detected DOB column, the malformed cell `garbage`
renders as the string `NaT`, not as the empty string. -/
theorem c9_malformed_date_nat_cex :
    getCol (clean tableC9) "DOB"
      = ["1980-01-01 00:00:00", "1985-05-05 00:00:00", "NaT"] ∧
    (getCol (clean tableC9) "DOB").getD 2 "" = "NaT" ∧
    ("NaT" : String) ≠ "" := by decide

/-- C9 amended: cleaning is total — for every well-formed input with at least
one column it produces the full 16-column output with no error and nothing
truncated, and a field whose expected source columns are missing is all empty
strings; however, a malformed date cell inside a detected date column renders
as the string `"NaT"`, not the empty string (every DOB / Business Start Date
cell is `""`, `"NaT"`, or a rendered timestamp). -/
theorem c9_silent_degradation (t : Table) (hwf : t.WF) (hne : t.cols ≠ []) :
    ((clean t).cols.map Prod.fst = FINAL_COLUMNS ∧ (clean t).WF) ∧
    (∀ f ∈ FINAL_COLUMNS, fieldMatched t f = false →
      getCol (clean t) f = List.replicate t.nrows "") ∧
    (∀ cell ∈ getCol (clean t) "DOB",
      cell = "" ∨ cell = "NaT" ∨ ∃ d : PyDate, cell = pyDateStr d) ∧
    (∀ cell ∈ getCol (clean t) "Business Start Date",
      cell = "" ∨ cell = "NaT" ∨ ∃ d : PyDate, cell = pyDateStr d) := by
  refine ⟨⟨rfl, clean_WF hwf⟩, clean_unmatched_empty hne, ?_, ?_⟩
  · intro cell hcell
    rw [getCol_clean_dob] at hcell
    unfold extract_dobs at hcell
    cases hfind : t.cols.find? (fun c => isDobCandidate c.2) with
    | none =>
      rw [hfind] at hcell
      exact Or.inl (List.eq_of_mem_replicate hcell)
    | some c =>
      rw [hfind] at hcell
      rcases List.mem_map.mp hcell with ⟨v, hv, rfl⟩
      rcases dateCellStr_cases v with h | h
      · exact Or.inr (Or.inl h)
      · exact Or.inr (Or.inr h)
  · intro cell hcell
    rw [getCol_clean_bsd] at hcell
    unfold extract_bsd at hcell
    cases hfind : t.cols.find? (fun c => isBsdCandidate c.2) with
    | none =>
      rw [hfind] at hcell
      exact Or.inl (List.eq_of_mem_replicate hcell)
    | some c =>
      rw [hfind] at hcell
      rcases List.mem_map.mp hcell with ⟨v, hv, rfl⟩
      rcases dateCellStr_cases v with h | h
      · exact Or.inr (Or.inl h)
      · exact Or.inr (Or.inr h)

/-- Witness for the amended C9 at the malformed-date table. -/
theorem c9_silent_degradation_witness :
    ((clean tableC9).cols.map Prod.fst = FINAL_COLUMNS ∧ (clean tableC9).WF) ∧
    (∀ f ∈ FINAL_COLUMNS, fieldMatched tableC9 f = false →
      getCol (clean tableC9) f = List.replicate tableC9.nrows "") ∧
    (∀ cell ∈ getCol (clean tableC9) "DOB",
      cell = "" ∨ cell = "NaT" ∨ ∃ d : PyDate, cell = pyDateStr d) ∧
    (∀ cell ∈ getCol (clean tableC9) "Business Start Date",
      cell = "" ∨ cell = "NaT" ∨ ∃ d : PyDate, cell = pyDateStr d) :=
  c9_silent_degradation tableC9 (by decide) (by decide)

end LeadCleaner

/-!
## Bank_Statements_Verifier.py: `detect_negative_days`

The function scans a statement's text with
`re.findall(r"(\b\w{3} \d{2})\s+\$\-?([0-9,]+\.\d{2})", text)` and counts the
matches whose captured balance parses to a negative float.  The scanner below
is a direct implementation of that one regex: left-to-right, non-overlapping,
the `\b` boundary tracked through the word-status of the previously consumed
character, greedy `[0-9,]+` (no backtracking can help it: a shorter run would
put a digit or comma where `\.` must match).
-/

namespace BankVerifier

open LeadCleaner (isPySpace digitsVal)

/-- Python regex `\w` (ASCII subset): letters, digits, underscore. -/
def isWordChar (c : Char) : Bool :=
  c.isAlpha || c.isDigit || c = '_'

/-- The character class `[0-9,]` of the balance capture group. -/
def isNumComma (c : Char) : Bool :=
  c.isDigit || c = ','

/-- Match `([0-9,]+\.\d{2})` at the head of the input; returns the captured
text and the remaining characters. -/
def matchBalance (s : List Char) : Option (List Char × List Char) :=
  if (s.takeWhile isNumComma).isEmpty then none
  else
    match s.dropWhile isNumComma with
    | '.' :: a :: b :: r2 =>
      if a.isDigit && b.isDigit then
        some (s.takeWhile isNumComma ++ ['.', a, b], r2)
      else none
    | _ => none

/-- Match `\w{3} \d{2}\s+\$\-?([0-9,]+\.\d{2})` at the head of the input (the
`\b` boundary is checked by the caller); returns the captured balance and the
remainder after the match. -/
def matchAt (s : List Char) : Option (List Char × List Char) :=
  match s with
  | w1 :: w2 :: w3 :: ' ' :: d1 :: d2 :: rest =>
    if isWordChar w1 && isWordChar w2 && isWordChar w3 && d1.isDigit && d2.isDigit then
      if (rest.takeWhile isPySpace).isEmpty then none
      else
        match rest.dropWhile isPySpace with
        | '$' :: '-' :: r4 => matchBalance r4
        | '$' :: r3 => matchBalance r3
        | _ => none
    else none
  | _ => none

/-- `re.findall` over the statement text: collect the balance captures of all
non-overlapping matches, scanning left to right.  `prevW` is the word-status
of the previously consumed character (initially false: start of string); after
a match it is true, since a match always ends in a decimal digit.  The fuel is
an upper bound on the number of scanning steps. -/
def scanBalances : Nat → Bool → List Char → List (List Char)
  | 0, _, _ => []
  | _ + 1, _, [] => []
  | fuel + 1, prevW, c :: rest =>
    if prevW then scanBalances fuel (isWordChar c) rest
    else
      match matchAt (c :: rest) with
      | some (cap, r2) => cap :: scanBalances fuel true r2
      | none => scanBalances fuel (isWordChar c) rest

/-- Hundredths-of-a-unit magnitude of an unsigned balance literal
(digits, a dot, two decimals), after comma removal. -/
def centsAbs (l : List Char) : Nat :=
  digitsVal (l.takeWhile (fun c => c ≠ '.')) * 100
    + digitsVal ((l.dropWhile (fun c => c ≠ '.')).drop 1)

/-- `float(balance.replace(",", "")) < 0` for a captured balance: negative
exactly when a leading minus sign precedes a non-zero magnitude. -/
def balanceIsNegative (cap : List Char) : Bool :=
  let noCommas := cap.filter (fun c => c ≠ ',')
  if noCommas.head? = some '-' then decide (0 < centsAbs noCommas.tail) else false

/-- `detect_negative_days(text)` from Bank_Statements_Verifier.py lines 85-88:
the number of regex matches whose balance parses negative. -/
def detect_negative_days (text : String) : Nat :=
  ((scanBalances (text.toList.length + 1) false text.toList).filter balanceIsNegative).length

lemma matchBalance_no_minus {s cap r : List Char}
    (h : matchBalance s = some (cap, r)) : '-' ∉ cap := by
  unfold matchBalance at h
  split at h
  · exact absurd h (by simp)
  · split at h
    · split at h
      · rename_i a b r2 heq hd
        injection h with h1
        rw [Prod.mk.injEq] at h1
        obtain ⟨hcap, -⟩ := h1
        subst hcap
        intro hmem
        rcases List.mem_append.mp hmem with hm | hm
        · have := List.mem_takeWhile_imp hm
          exact absurd this (by decide)
        · rw [Bool.and_eq_true] at hd
          simp only [List.mem_cons, List.not_mem_nil, or_false] at hm
          rcases hm with hm | hm | hm
          · exact absurd hm (by decide)
          · rw [← hm] at hd
            exact absurd hd.1 (by decide)
          · rw [← hm] at hd
            exact absurd hd.2 (by decide)
      · exact absurd h (by simp)
    · exact absurd h (by simp)

lemma matchAt_no_minus {s cap r : List Char} (h : matchAt s = some (cap, r)) :
    '-' ∉ cap := by
  unfold matchAt at h
  split at h
  · split at h
    · split at h
      · exact absurd h (by simp)
      · split at h
        · exact matchBalance_no_minus h
        · exact matchBalance_no_minus h
        · exact absurd h (by simp)
    · exact absurd h (by simp)
  · exact absurd h (by simp)

lemma scanBalances_no_minus :
    ∀ (fuel : Nat) (prevW : Bool) (s : List Char) (cap : List Char),
      cap ∈ scanBalances fuel prevW s → '-' ∉ cap := by
  intro fuel
  induction fuel with
  | zero => intro prevW s cap hc; exact absurd hc (by simp [scanBalances])
  | succ n ih =>
    intro prevW s cap hc
    cases s with
    | nil => exact absurd hc (by simp [scanBalances])
    | cons c rest =>
      rw [scanBalances] at hc
      by_cases hw : prevW = true
      · rw [if_pos hw] at hc
        exact ih _ _ _ hc
      · rw [if_neg hw] at hc
        rcases hm : matchAt (c :: rest) with _ | ⟨cap2, r2⟩
        · rw [hm] at hc
          exact ih _ _ _ hc
        · rw [hm] at hc
          rcases List.mem_cons.mp hc with rfl | hc2
          · exact matchAt_no_minus hm
          · exact ih _ _ _ hc2

lemma balanceIsNegative_of_no_minus {cap : List Char} (h : '-' ∉ cap) :
    balanceIsNegative cap = false := by
  unfold balanceIsNegative
  have hhead : (cap.filter (fun c => c ≠ ',')).head? ≠ some '-' := by
    intro hsome
    have hmem : '-' ∈ cap.filter (fun c => c ≠ ',') := by
      cases hf : cap.filter (fun c => c ≠ ',') with
      | nil => rw [hf] at hsome; exact absurd hsome (by simp)
      | cons x xs =>
        rw [hf] at hsome
        simp only [List.head?_cons, Option.some.injEq] at hsome
        rw [hsome]
        exact List.mem_cons_self _ _
    exact h (List.mem_of_mem_filter hmem)
  rw [if_neg hhead]

/-- C10: `detect_negative_days` returns 0 on every input text — the regex
capture group `([0-9,]+\.\d{2})` excludes the optional minus sign, so every
captured balance is sign-free and never parses negative. -/
theorem c10_detect_negative_days_always_zero (text : String) :
    detect_negative_days text = 0 := by
  unfold detect_negative_days
  rw [List.length_eq_zero, List.filter_eq_nil]
  intro cap hcap
  rw [balanceIsNegative_of_no_minus (scanBalances_no_minus _ _ _ _ hcap)]
  simp

/-- Sanity check that the scanner is not vacuous: on a statement line with a
negative balance marker, the match succeeds, the capture excludes the sign,
and the negative-day count is still zero. -/
lemma detect_negative_days_concrete :
    scanBalances 18 false "Oct 05   $-1,234.56".toList = [['1', ',', '2', '3', '4', '.', '5', '6']] ∧
    detect_negative_days "Oct 05   $-1,234.56" = 0 := by decide

end BankVerifier
